import Mathlib

/-!
Verification development for gblog.py (post text/HTML files to a Blogger
blog).  The Python source is embedded shallowly: Python strings become
`List Char`, the two marker-extraction regular expressions become an
explicit backtracking matcher with the same match order as the `re`
engine (leftmost start, greedy whitespace stars, lazy capture), and the
effectful parts of `main` become pure functions over explicit
environments recording the outcomes of file/network operations.
-/

/-- Python strings, modelled as lists of characters. -/
abbrev PyStr := List Char

/-- Whitespace characters, matching Python's regex class for whitespace and
`str.strip` on the ASCII range (the range relevant to the markers the
program processes). -/
def isPySpace (c : Char) : Bool :=
  c = ' ' || c = '\t' || c = '\n' || c = '\r' || c = '\x0b' || c = '\x0c'

/-- Literal `<!--` that opens a marker. -/
def lmStr : PyStr := ['<', '!', '-', '-']

/-- Literal `>` that closes the opening keyword. -/
def gtStr : PyStr := ['>']

/-- Literal `<` that opens the closing keyword. -/
def ltStr : PyStr := ['<']

/-- Literal `-->` that closes a marker. -/
def arrowStr : PyStr := ['-', '-', '>']

/-- Keyword of the title marker regex (`title`). -/
def titleKw : PyStr := ['t', 'i', 't', 'l', 'e']

/-- Keyword of the labels marker regex (`labels`). -/
def labelsKw : PyStr := ['l', 'a', 'b', 'e', 'l', 's']

example : lmStr = "<!--".toList ∧ gtStr = ">".toList ∧ ltStr = "<".toList ∧
    arrowStr = "-->".toList ∧ titleKw = "title".toList ∧
    labelsKw = "labels".toList := by decide

/-- Drop the maximal whitespace prefix.  A greedy whitespace star that is
followed by a non-whitespace literal can only succeed after consuming the
whole whitespace run, so this is the deterministic reduct of that star. -/
def skipWs : PyStr → PyStr
  | [] => []
  | c :: r => if isPySpace c then skipWs r else c :: r

/-- Match a literal at the start of a string, returning the remainder. -/
def stripLit : PyStr → PyStr → Option PyStr
  | [], s => some s
  | _ :: _, [] => none
  | a :: xs, b :: ys => if a = b then stripLit xs ys else none

/-- Match a literal case-insensitively (ASCII lowering, as `re.IGNORECASE`
acts on the ASCII keywords used by the two marker patterns). -/
def stripLitCI : PyStr → PyStr → Option PyStr
  | [], s => some s
  | _ :: _, [] => none
  | a :: xs, b :: ys =>
    if Char.toLower a = Char.toLower b then stripLitCI xs ys else none

/-- Whether the closing part `\s* < kw \s* -->` of the marker regex matches a
prefix of `s`.  Both whitespace stars are followed by non-whitespace
literals, so they are deterministic maximal skips. -/
def tailMatch (kw : PyStr) (s : PyStr) : Bool :=
  match stripLit ltStr (skipWs s) with
  | none => false
  | some r1 =>
    match stripLitCI kw r1 with
    | none => false
    | some r2 =>
      match stripLit arrowStr (skipWs r2) with
      | none => false
      | some _ => true

/-- The lazy capture `(.+?)` (with `re.DOTALL`) starting exactly here: the
shortest non-empty prefix of `s` after which the closing part matches.
Mirrors the engine's order of trying capture lengths 1, 2, ... -/
def findCapture (kw : PyStr) : PyStr → Option PyStr
  | [] => none
  | c :: rest =>
    if tailMatch kw rest then some [c]
    else
      match findCapture kw rest with
      | some cap => some (c :: cap)
      | none => none

/-- The greedy whitespace star before the lazy capture, with backtracking:
the engine first consumes the whole whitespace run, and on failure gives
characters back one at a time (so a backtracked capture starts with
whitespace). -/
def captureAfterWs (kw : PyStr) : PyStr → Option PyStr
  | [] => none
  | c :: rest =>
    if isPySpace c then
      match captureAfterWs kw rest with
      | some cap => some cap
      | none => findCapture kw (c :: rest)
    else findCapture kw (c :: rest)

/-- Attempt the whole marker regex anchored at the start of `s`, returning
the capture group on success. -/
def tryMatchAt (kw : PyStr) (s : PyStr) : Option PyStr :=
  match stripLit lmStr s with
  | none => none
  | some r1 =>
    match stripLitCI kw (skipWs r1) with
    | none => none
    | some r2 =>
      match stripLit gtStr r2 with
      | none => none
      | some r3 => captureAfterWs kw r3

/-- `re.search` for the marker pattern with keyword `kw`: try each start
position from left to right and return the first successful match's
capture group. -/
def reSearch (kw : PyStr) : PyStr → Option PyStr
  | [] => none
  | c :: rest =>
    match tryMatchAt kw (c :: rest) with
    | some cap => some cap
    | none => reSearch kw rest

/-- Python `str.strip()`: remove leading and trailing whitespace. -/
def pyStrip (s : PyStr) : PyStr :=
  ((s.dropWhile isPySpace).reverse.dropWhile isPySpace).reverse

/-- Python `str.split(sep=",")`: split on every comma, keeping empty pieces;
the result is never the empty list. -/
def splitComma : PyStr → List PyStr
  | [] => [[]]
  | c :: rest =>
    if c = ',' then [] :: splitComma rest
    else
      match splitComma rest with
      | p :: ps => (c :: p) :: ps
      | [] => [[c]]

/-- Python `",".join(...)`. -/
def joinComma : List PyStr → PyStr
  | [] => []
  | [x] => x
  | x :: y :: ys => x ++ ',' :: joinComma (y :: ys)

/-- Lines 255-257 of gblog.py: split the stripped labels text on commas,
strip each piece, and drop the empty pieces. -/
def labelPieces (labelsText : PyStr) : List PyStr :=
  ((splitComma labelsText).map pyStrip).filter (fun l => !l.isEmpty)

/-- `extract_metadata_from_content` (gblog.py lines 222-260): extract the
optional title and optional labels list from the two HTML-comment-style
markers.  Returns `(title, labels)` where either side may be absent. -/
def extract_metadata_from_content (content : PyStr) :
    Option PyStr × Option (List PyStr) :=
  let title := (reSearch titleKw content).map pyStrip
  let labels :=
    match reSearch labelsKw content with
    | none => none
    | some cap =>
      if (pyStrip cap).isEmpty then none
      else some (labelPieces (pyStrip cap))
  (title, labels)

example :
    extract_metadata_from_content ("<!-- title> Hi there <title -->".toList)
      = (some ("Hi there".toList), none) := by decide

example :
    extract_metadata_from_content
        ("x<!-- LABELS>a, b ,c<labels -->y".toList)
      = (none, some ["a".toList, "b".toList, "c".toList]) := by decide

example :
    extract_metadata_from_content ("<!-- labels>,<labels -->".toList)
      = (none, some []) := by decide

example :
    extract_metadata_from_content ("<!-- title> <title -->".toList)
      = (some [], none) := by decide

example :
    extract_metadata_from_content ("no markers here".toList)
      = (none, none) := by decide

/-- Truthiness of an optional Python string: `None` and `""` are falsy. -/
def truthyS : Option PyStr → Bool
  | none => false
  | some s => !s.isEmpty

/-- Truthiness of an optional Python list: `None` and `[]` are falsy. -/
def truthyL : Option (List PyStr) → Bool
  | none => false
  | some l => !l.isEmpty

/-- Default path of the OAuth client credentials file (gblog.py line 37). -/
def DEFAULT_CREDENTIALS_FILE : PyStr := "credentials.json".toList

/-- Default path of the stored token file (gblog.py line 38). -/
def DEFAULT_TOKEN_FILE : PyStr := "token.json".toList

/-- The argparse namespace produced by `main` (lines 412-435): optional
flags default to `None`, `draft`/`verbose` to `False`, and the credential
and token paths to their literal default file names. -/
structure Args where
  file : PyStr
  title : Option PyStr := none
  blog_url : Option PyStr := none
  blog_id : Option PyStr := none
  labels : Option PyStr := none
  draft : Bool := false
  credentials : PyStr := DEFAULT_CREDENTIALS_FILE
  token : PyStr := DEFAULT_TOKEN_FILE
  config : Option PyStr := none
  verbose : Bool := false
  deriving DecidableEq

/-- A YAML `labels` value: either a list of strings or a single
comma-separated string (the two shapes `merge_config_with_args`
distinguishes with `isinstance`). -/
inductive LabelsVal where
  | asList (ls : List PyStr)
  | asStr (s : PyStr)
  deriving DecidableEq

/-- The configuration mapping loaded from the YAML file, with the keys
`merge_config_with_args` recognises; an absent key is `none`. -/
structure Config where
  blog_url : Option PyStr := none
  blog_id : Option PyStr := none
  labels : Option LabelsVal := none
  credentials : Option PyStr := none
  token : Option PyStr := none
  draft : Option Bool := none
  deriving DecidableEq

/-- The blog_url block of `merge_config_with_args` (lines 309-311): apply
the config blog url when the command-line one is falsy and the config one
is truthy. -/
def mergeBlogUrl (config : Config) (a : Args) : Args :=
  match config.blog_url with
  | some v =>
    if truthyS a.blog_url = false ∧ v ≠ [] then { a with blog_url := some v }
    else a
  | none => a

/-- The blog_id block of `merge_config_with_args` (lines 313-315). -/
def mergeBlogId (config : Config) (a : Args) : Args :=
  match config.blog_id with
  | some v =>
    if truthyS a.blog_id = false ∧ v ≠ [] then { a with blog_id := some v }
    else a
  | none => a

/-- The labels block of `merge_config_with_args` (lines 317-322): a config
labels list is joined on commas into the string form the CLI accepts; a
config labels string is taken as is. -/
def mergeLabels (config : Config) (a : Args) : Args :=
  match config.labels with
  | some (.asList l) =>
    if truthyS a.labels = false ∧ l ≠ [] then
      { a with labels := some (joinComma l) }
    else a
  | some (.asStr s) =>
    if truthyS a.labels = false ∧ s ≠ [] then { a with labels := some s }
    else a
  | none => a

/-- The credentials block of `merge_config_with_args` (lines 324-326): the
command-line value counts as not supplied exactly when it equals the
literal default path. -/
def mergeCredentials (config : Config) (a : Args) : Args :=
  match config.credentials with
  | some v =>
    if a.credentials = DEFAULT_CREDENTIALS_FILE ∧ v ≠ [] then
      { a with credentials := v }
    else a
  | none => a

/-- The token block of `merge_config_with_args` (lines 328-330). -/
def mergeToken (config : Config) (a : Args) : Args :=
  match config.token with
  | some v =>
    if a.token = DEFAULT_TOKEN_FILE ∧ v ≠ [] then { a with token := v }
    else a
  | none => a

/-- The draft block of `merge_config_with_args` (lines 332-334): a falsy
command-line draft flag is replaced by a truthy config draft value. -/
def mergeDraft (config : Config) (a : Args) : Args :=
  match config.draft with
  | some b => if a.draft = false ∧ b = true then { a with draft := b } else a
  | none => a

/-- `merge_config_with_args` (lines 296-336): apply each config value in
source order, only when the corresponding command-line value is falsy (or,
for the credential and token paths, equal to the literal default) and the
config value is truthy. -/
def merge_config_with_args (config : Config) (args : Args) : Args :=
  mergeDraft config (mergeToken config (mergeCredentials config
    (mergeLabels config (mergeBlogId config (mergeBlogUrl config args)))))

/-- Outcomes of the file-system and YAML operations `load_config_file`
performs: whether the path exists, whether PyYAML is importable, and the
combined read-and-parse result (`.ok none` models an empty YAML document,
`.error` a YAMLError or any other read exception). -/
structure CfgEnv where
  pathExists : Bool
  yamlAvailable : Bool
  readParse : Except Unit (Option Config)

/-- `load_config_file` (lines 263-293): a falsy or non-existent path, a
missing PyYAML, an empty document, a parse error and a read error all
degrade to the empty configuration; only a successful parse yields its
mapping. -/
def load_config_file (config_path : Option PyStr) (env : CfgEnv) : Config :=
  if truthyS config_path = false ∨ env.pathExists = false then {}
  else if env.yamlAvailable = false then {}
  else
    match env.readParse with
    | .ok (some c) => c
    | .ok none => {}
    | .error _ => {}

/-- Final title resolution in `main` (line 470): the command-line title wins
when truthy, otherwise the title extracted from the file content. -/
def finalTitle (args : Args) (fileTitle : Option PyStr) : Option PyStr :=
  if truthyS args.title then args.title else fileTitle

/-- Final labels resolution in `main` (lines 479-485): a truthy command-line
labels string is split on commas with each piece stripped (empty pieces
are kept); otherwise truthy file labels are used; otherwise no labels. -/
def finalLabels (args : Args) (fileLabels : Option (List PyStr)) :
    Option (List PyStr) :=
  if truthyS args.labels then
    some ((splitComma (args.labels.getD [])).map pyStrip)
  else if truthyL fileLabels then fileLabels
  else none

/-- The post resource body constructed by `post_to_blog` (lines 359-366):
the labels key is present only when the labels value is truthy. -/
structure PostBody where
  kind : PyStr
  title : PyStr
  content : PyStr
  labels : Option (List PyStr)
  deriving DecidableEq

/-- Body construction of `post_to_blog` (lines 359-366). -/
def post_body (title content : PyStr) (labels : Option (List PyStr)) :
    PostBody :=
  { kind := "blogger#post".toList
    title := title
    content := content
    labels := if truthyL labels then labels else none }

/-- A blog resource as returned by the remote API. -/
structure Blog where
  id : PyStr
  name : PyStr
  url : PyStr
  deriving DecidableEq

/-- Outcomes of the remote calls `get_blog_id` may perform; an error is an
HttpError carrying its status code.  `listByUser`'s `none` models a
response without an `items` key. -/
structure BlogEnv where
  getById : Except Nat Blog
  getByUrl : Except Nat Blog
  listByUser : Except Nat (Option (List Blog))

/-- Result of `get_blog_id`: a returned blog id, a `sys.exit(1)`, or a run
left at the re-prompting selection loop with no valid input remaining. -/
inductive GBOut where
  | ret (id : PyStr)
  | exit1
  | hung
  deriving DecidableEq

/-- The interactive selection loop of `get_blog_id` (lines 174-181): consume
user inputs (`none` models a ValueError or KeyboardInterrupt) until a
1-based index into the blog list is supplied; out-of-range numbers and
invalid inputs re-prompt. -/
def promptLoop (blogs : List Blog) : List (Option Nat) → GBOut × Bool
  | [] => (.hung, true)
  | choice :: rest =>
    match choice with
    | some n =>
      if h : 1 ≤ n ∧ n ≤ blogs.length then
        (.ret (blogs.get ⟨n - 1, by omega⟩).id, true)
      else promptLoop blogs rest
    | none => promptLoop blogs rest

/-- `get_blog_id` (lines 119-185): validate a truthy blog id remotely,
else resolve a truthy blog url, else list the user's blogs and select
(exit on a missing `items` key or an empty list, auto-select a single
blog, prompt for a choice among several).  The Bool records whether the
interactive prompt was reached. -/
def get_blog_id (env : BlogEnv) (blog_id blog_url : Option PyStr)
    (inputs : List (Option Nat)) : GBOut × Bool :=
  if truthyS blog_id then
    match env.getById with
    | .ok _ => (.ret (blog_id.getD []), false)
    | .error _ => (.exit1, false)
  else if truthyS blog_url then
    match env.getByUrl with
    | .ok b => (.ret b.id, false)
    | .error _ => (.exit1, false)
  else
    match env.listByUser with
    | .error _ => (.exit1, false)
    | .ok none => (.exit1, false)
    | .ok (some []) => (.exit1, false)
    | .ok (some [b]) => (.ret b.id, false)
    | .ok (some (b1 :: b2 :: bs)) => promptLoop (b1 :: b2 :: bs) inputs

/-- Observable steps of a run of `main`: reading the input file, credential
acquisition, building the API service, blog resolution, and the remote
create-post call. -/
inductive Ev where
  | readFile
  | auth
  | buildService
  | getBlogId
  | postToBlog
  deriving DecidableEq

/-- Outcome of a run of `main`: `exited c evs` models `sys.exit(c)` after
the events `evs`; `finished` is a successful run with the submitted post
body; `hung` is a run left at the interactive selection prompt. -/
inductive MainOut where
  | exited (code : Nat) (events : List Ev)
  | finished (events : List Ev) (body : PostBody)
  | hung (events : List Ev)
  deriving DecidableEq

/-- Environment of a run of `main`: the parsed command-line arguments and
the outcomes of every external operation the run may perform. -/
structure MainEnv where
  args : Args
  cfgEnv : CfgEnv
  fileExists : Bool
  readResult : Except Unit PyStr
  credsOk : Except Unit Unit
  blogEnv : BlogEnv
  inputs : List (Option Nat)
  postOk : Except Unit Unit

/-- Lines 437-441 of `main`: the effective argument namespace after loading
the optional config file and merging it with the command line. -/
def effectiveArgs (env : MainEnv) : Args :=
  merge_config_with_args
    (if truthyS env.args.config then load_config_file env.args.config env.cfgEnv
     else {})
    env.args

/-- `main` (lines 391-510) as a function of the run environment: load and
merge the configuration, validate and read the input file, extract
metadata, resolve the final title (exiting with status 1 before any
credential or network step when it is missing), resolve the final labels,
then authenticate, build the service, resolve the blog and submit the
post. -/
def mainRun (env : MainEnv) : MainOut :=
  if env.fileExists = false then .exited 1 []
  else
    match env.readResult with
    | .error _ => .exited 1 [.readFile]
    | .ok content =>
      if truthyS (finalTitle (effectiveArgs env)
          (extract_metadata_from_content content).1) = false then
        .exited 1 [.readFile]
      else
        match env.credsOk with
        | .error _ => .exited 1 [.readFile, .auth]
        | .ok _ =>
          match get_blog_id env.blogEnv (effectiveArgs env).blog_id
              (effectiveArgs env).blog_url env.inputs with
          | (.exit1, _) => .exited 1 [.readFile, .auth, .buildService, .getBlogId]
          | (.hung, _) => .hung [.readFile, .auth, .buildService, .getBlogId]
          | (.ret _, _) =>
            match env.postOk with
            | .error _ =>
              .exited 1 [.readFile, .auth, .buildService, .getBlogId, .postToBlog]
            | .ok _ =>
              .finished [.readFile, .auth, .buildService, .getBlogId, .postToBlog]
                (post_body ((finalTitle (effectiveArgs env)
                    (extract_metadata_from_content content).1).getD [])
                  content
                  (finalLabels (effectiveArgs env)
                    (extract_metadata_from_content content).2))

/-- Every character of the list is whitespace. -/
abbrev AllWs (w : PyStr) : Prop := ∀ c ∈ w, isPySpace c = true

/-- Declarative reading (following the spec's description of the marker
pattern) of "the content contains a marker with keyword `kw`": somewhere
in the content, `<!--`, optional whitespace, the keyword written in any
case, `>`, a non-empty capture possibly surrounded by whitespace, `<`, the
keyword in any case, optional whitespace, and `-->` occur in sequence. -/
def HasMarker (kw content : PyStr) : Prop :=
  ∃ pre w1 t w2 cap w3 t2 w4 post,
    content =
      pre ++ (lmStr ++ (w1 ++ (t ++ ('>' :: (w2 ++ (cap ++ (w3 ++ ('<' ::
        (t2 ++ (w4 ++ ('-' :: '-' :: '>' :: post))))))))))) ∧
    AllWs w1 ∧ AllWs w2 ∧ AllWs w3 ∧ AllWs w4 ∧
    t.map Char.toLower = kw.map Char.toLower ∧
    t2.map Char.toLower = kw.map Char.toLower ∧
    cap ≠ []

theorem stripLit_self (lit r : PyStr) : stripLit lit (lit ++ r) = some r := by
  induction lit with
  | nil => rfl
  | cons a xs ih => simp [stripLit, ih]

theorem stripLit_eq (lit s r : PyStr) (h : stripLit lit s = some r) :
    s = lit ++ r := by
  induction lit generalizing s with
  | nil => simpa [stripLit] using h
  | cons a xs ih =>
    cases s with
    | nil => simp [stripLit] at h
    | cons b ys =>
      by_cases hab : a = b
      · subst hab
        simp only [stripLit, if_pos rfl] at h
        rw [ih ys h]
        rfl
      · simp [stripLit, hab] at h

theorem stripLitCI_eq (lit s r : PyStr) (h : stripLitCI lit s = some r) :
    ∃ t, s = t ++ r ∧ t.map Char.toLower = lit.map Char.toLower := by
  induction lit generalizing s with
  | nil =>
    refine ⟨[], ?_, rfl⟩
    simpa [stripLitCI] using h
  | cons a xs ih =>
    cases s with
    | nil => simp [stripLitCI] at h
    | cons b ys =>
      by_cases hab : Char.toLower a = Char.toLower b
      · simp only [stripLitCI, if_pos hab] at h
        obtain ⟨t, ht, hmap⟩ := ih ys h
        exact ⟨b :: t, by simp [ht], by simp [hmap, hab]⟩
      · simp [stripLitCI, hab] at h

theorem stripLitCI_of (lit t r : PyStr)
    (h : t.map Char.toLower = lit.map Char.toLower) :
    stripLitCI lit (t ++ r) = some r := by
  induction lit generalizing t with
  | nil =>
    cases t with
    | nil => rfl
    | cons b ys => simp at h
  | cons a xs ih =>
    cases t with
    | nil => simp at h
    | cons b ys =>
      simp only [List.map_cons, List.cons.injEq] at h
      simp [stripLitCI, h.1, ih ys h.2]

theorem skipWs_decomp (s : PyStr) : ∃ w, s = w ++ skipWs s ∧ AllWs w := by
  induction s with
  | nil => exact ⟨[], rfl, fun x hx => nomatch hx⟩
  | cons c r ih =>
    by_cases hc : isPySpace c = true
    · obtain ⟨w, hw, hall⟩ := ih
      refine ⟨c :: w, ?_, ?_⟩
      · rw [skipWs, if_pos hc]
        simpa using hw
      · intro x hx
        rcases List.mem_cons.mp hx with rfl | hx
        · exact hc
        · exact hall x hx
    · refine ⟨[], ?_, fun x hx => nomatch hx⟩
      rw [Bool.not_eq_true] at hc
      simp [skipWs, hc]

theorem skipWs_append (w r : PyStr) (h : AllWs w) :
    skipWs (w ++ r) = skipWs r := by
  induction w with
  | nil => rfl
  | cons c ys ih =>
    have hc : isPySpace c = true := h c (by simp)
    have hys : AllWs ys := fun x hx => h x (by simp [hx])
    simp only [List.cons_append, skipWs, if_pos hc]
    exact ih hys

theorem skipWs_nonspace (c : Char) (r : PyStr) (h : isPySpace c = false) :
    skipWs (c :: r) = c :: r := by
  simp [skipWs, h]

theorem ws_toLower (c : Char) (h : isPySpace c = true) :
    Char.toLower c = c := by
  simp only [isPySpace, Bool.or_eq_true, decide_eq_true_eq] at h
  rcases h with ((((h | h) | h) | h) | h) | h <;> subst h <;> decide

theorem kw_head_nonspace (kw t : PyStr)
    (hk : kw = titleKw ∨ kw = labelsKw)
    (hmap : t.map Char.toLower = kw.map Char.toLower) :
    ∃ c r, t = c :: r ∧ isPySpace c = false := by
  have hkm : ∃ d rest, kw.map Char.toLower = d :: rest ∧
      isPySpace d = false := by
    rcases hk with h | h <;> subst h
    · exact ⟨'t', ['i', 't', 'l', 'e'], by decide, by decide⟩
    · exact ⟨'l', ['a', 'b', 'e', 'l', 's'], by decide, by decide⟩
  obtain ⟨d, rest, hd1, hd2⟩ := hkm
  rw [hd1] at hmap
  cases t with
  | nil => simp at hmap
  | cons c r =>
    refine ⟨c, r, rfl, ?_⟩
    simp only [List.map_cons, List.cons.injEq] at hmap
    by_contra hsp
    rw [Bool.not_eq_false] at hsp
    have hc := ws_toLower c hsp
    rw [hc] at hmap
    rw [hmap.1] at hsp
    rw [hsp] at hd2
    exact absurd hd2 (by simp)

theorem tailMatch_of (kw t2 w3 w4 post : PyStr)
    (h3 : AllWs w3) (h4 : AllWs w4)
    (ht2 : t2.map Char.toLower = kw.map Char.toLower) :
    tailMatch kw
      (w3 ++ ('<' :: (t2 ++ (w4 ++ ('-' :: '-' :: '>' :: post))))) = true := by
  have e1 : skipWs (w3 ++ ('<' :: (t2 ++ (w4 ++ ('-' :: '-' :: '>' :: post)))))
      = '<' :: (t2 ++ (w4 ++ ('-' :: '-' :: '>' :: post))) := by
    rw [skipWs_append _ _ h3, skipWs_nonspace _ _ (by decide)]
  have e2 : stripLit ltStr ('<' :: (t2 ++ (w4 ++ ('-' :: '-' :: '>' :: post))))
      = some (t2 ++ (w4 ++ ('-' :: '-' :: '>' :: post))) :=
    stripLit_self ltStr _
  have e3 : stripLitCI kw (t2 ++ (w4 ++ ('-' :: '-' :: '>' :: post)))
      = some (w4 ++ ('-' :: '-' :: '>' :: post)) := stripLitCI_of _ _ _ ht2
  have e4 : skipWs (w4 ++ ('-' :: '-' :: '>' :: post))
      = '-' :: '-' :: '>' :: post := by
    rw [skipWs_append _ _ h4, skipWs_nonspace _ _ (by decide)]
  have e5 : stripLit arrowStr ('-' :: '-' :: '>' :: post) = some post :=
    stripLit_self arrowStr post
  simp [tailMatch, e1, e2, e3, e4, e5]

theorem tailMatch_decomp (kw s : PyStr) (h : tailMatch kw s = true) :
    ∃ w3 t2 w4 post,
      s = w3 ++ ('<' :: (t2 ++ (w4 ++ ('-' :: '-' :: '>' :: post)))) ∧
      AllWs w3 ∧ AllWs w4 ∧
      t2.map Char.toLower = kw.map Char.toLower := by
  unfold tailMatch at h
  split at h
  · exact absurd h (by simp)
  rename_i r1 e1
  split at h
  · exact absurd h (by simp)
  rename_i r2 e2
  split at h
  · exact absurd h (by simp)
  rename_i r3 e3
  obtain ⟨w3, hw3, hall3⟩ := skipWs_decomp s
  obtain ⟨w4, hw4, hall4⟩ := skipWs_decomp r2
  have hlt := stripLit_eq _ _ _ e1
  obtain ⟨t2, ht2, htm⟩ := stripLitCI_eq _ _ _ e2
  have har := stripLit_eq _ _ _ e3
  refine ⟨w3, t2, w4, r3, ?_, hall3, hall4, htm⟩
  rw [hlt] at hw3
  rw [har] at hw4
  rw [ht2, hw4] at hw3
  simpa [ltStr, arrowStr, List.append_assoc] using hw3

theorem findCapture_decomp (kw : PyStr) (s cap : PyStr)
    (h : findCapture kw s = some cap) :
    cap ≠ [] ∧ ∃ rest, s = cap ++ rest ∧ tailMatch kw rest = true := by
  induction s generalizing cap with
  | nil => simp [findCapture] at h
  | cons c r ih =>
    by_cases ht : tailMatch kw r = true
    · have e : findCapture kw (c :: r) = some [c] := by
        simp [findCapture, ht]
      rw [e] at h
      obtain rfl : cap = [c] := by
        injection h with h
        exact h.symm
      exact ⟨by simp, r, rfl, ht⟩
    · rw [Bool.not_eq_true] at ht
      cases e : findCapture kw r with
      | none =>
        have e2 : findCapture kw (c :: r) = none := by
          simp [findCapture, ht, e]
        rw [e2] at h
        exact absurd h (by simp)
      | some cap2 =>
        have e2 : findCapture kw (c :: r) = some (c :: cap2) := by
          simp [findCapture, ht, e]
        rw [e2] at h
        obtain rfl : cap = c :: cap2 := by
          injection h with h
          exact h.symm
        obtain ⟨_, rest, hr, htm⟩ := ih cap2 e
        exact ⟨by simp, rest, by simp [hr], htm⟩

theorem findCapture_isSome (kw d T : PyStr) (hd : d ≠ [])
    (ht : tailMatch kw T = true) : (findCapture kw (d ++ T)).isSome = true := by
  induction d with
  | nil => exact absurd rfl hd
  | cons c ds ih =>
    rw [List.cons_append, findCapture]
    by_cases h2 : tailMatch kw (ds ++ T) = true
    · rw [if_pos h2]
      rfl
    · cases ds with
      | nil => rw [List.nil_append] at h2; exact absurd ht h2
      | cons c2 ds2 =>
        have hs := ih (by simp)
        cases e : findCapture kw ((c2 :: ds2) ++ T) with
        | none => rw [e] at hs; exact absurd hs (by simp)
        | some cap =>
          rw [if_neg h2]
          rfl

theorem captureAfterWs_decomp (kw : PyStr) (s cap : PyStr)
    (h : captureAfterWs kw s = some cap) :
    ∃ w rest, s = w ++ rest ∧ AllWs w ∧ findCapture kw rest = some cap := by
  induction s generalizing cap with
  | nil => simp [captureAfterWs] at h
  | cons c r ih =>
    by_cases hc : isPySpace c = true
    · cases e : captureAfterWs kw r with
      | some cap2 =>
        have e2 : captureAfterWs kw (c :: r) = some cap2 := by
          simp [captureAfterWs, hc, e]
        rw [e2] at h
        obtain rfl : cap = cap2 := by
          injection h with h
          exact h.symm
        obtain ⟨w, rest, hr, hall, hf⟩ := ih cap e
        refine ⟨c :: w, rest, by simp [hr], ?_, hf⟩
        intro x hx
        rcases List.mem_cons.mp hx with rfl | hx
        · exact hc
        · exact hall x hx
      | none =>
        have e2 : captureAfterWs kw (c :: r) = findCapture kw (c :: r) := by
          simp [captureAfterWs, hc, e]
        rw [e2] at h
        exact ⟨[], c :: r, rfl, fun x hx => absurd hx (List.not_mem_nil x), h⟩
    · rw [Bool.not_eq_true] at hc
      have e2 : captureAfterWs kw (c :: r) = findCapture kw (c :: r) := by
        simp [captureAfterWs, hc]
      rw [e2] at h
      exact ⟨[], c :: r, rfl, fun x hx => absurd hx (List.not_mem_nil x), h⟩

theorem captureAfterWs_isSome (kw s : PyStr)
    (h : (findCapture kw s).isSome = true) :
    (captureAfterWs kw s).isSome = true := by
  induction s with
  | nil => simp [findCapture] at h
  | cons c r ih =>
    by_cases hc : isPySpace c = true
    · cases e : captureAfterWs kw r with
      | some cap => simp [captureAfterWs, hc, e]
      | none => simpa [captureAfterWs, hc, e] using h
    · rw [Bool.not_eq_true] at hc
      simpa [captureAfterWs, hc] using h

theorem tryMatchAt_decomp (kw s cap : PyStr) (h : tryMatchAt kw s = some cap) :
    ∃ w1 t w2 w3 t2 w4 post,
      s = lmStr ++ (w1 ++ (t ++ ('>' :: (w2 ++ (cap ++ (w3 ++ ('<' ::
        (t2 ++ (w4 ++ ('-' :: '-' :: '>' :: post)))))))))) ∧
      AllWs w1 ∧ AllWs w2 ∧ AllWs w3 ∧ AllWs w4 ∧
      t.map Char.toLower = kw.map Char.toLower ∧
      t2.map Char.toLower = kw.map Char.toLower ∧ cap ≠ [] := by
  unfold tryMatchAt at h
  split at h
  · exact absurd h (by simp)
  rename_i r1 e1
  split at h
  · exact absurd h (by simp)
  rename_i r2 e2
  split at h
  · exact absurd h (by simp)
  rename_i r3 e3
  obtain ⟨w2, rest, hr3, hall2, hfc⟩ := captureAfterWs_decomp _ _ _ h
  obtain ⟨hcapne, rest2, hrest, htm⟩ := findCapture_decomp _ _ _ hfc
  obtain ⟨w3, t2, w4, post, hrest2, hall3, hall4, htm2⟩ :=
    tailMatch_decomp _ _ htm
  obtain ⟨w1, hw1, hall1⟩ := skipWs_decomp r1
  have hs := stripLit_eq _ _ _ e1
  obtain ⟨t, hts, htmap⟩ := stripLitCI_eq _ _ _ e2
  have hgt := stripLit_eq _ _ _ e3
  refine ⟨w1, t, w2, w3, t2, w4, post, ?_, hall1, hall2, hall3, hall4,
    htmap, htm2, hcapne⟩
  rw [hts] at hw1
  rw [hgt] at hw1
  rw [hr3] at hw1
  rw [hrest] at hw1
  rw [hrest2] at hw1
  rw [hw1] at hs
  simpa [gtStr, List.append_assoc] using hs

theorem reSearch_decomp (kw content cap : PyStr)
    (h : reSearch kw content = some cap) :
    ∃ pre s, content = pre ++ s ∧ tryMatchAt kw s = some cap := by
  induction content with
  | nil => simp [reSearch] at h
  | cons c r ih =>
    cases e : tryMatchAt kw (c :: r) with
    | some cap2 =>
      have e2 : reSearch kw (c :: r) = some cap2 := by rw [reSearch, e]
      rw [e2] at h
      obtain rfl : cap = cap2 := by
        injection h with h
        exact h.symm
      exact ⟨[], c :: r, rfl, e⟩
    | none =>
      have e2 : reSearch kw (c :: r) = reSearch kw r := by rw [reSearch, e]
      rw [e2] at h
      obtain ⟨pre, s, hr, hm⟩ := ih h
      exact ⟨c :: pre, s, by simp [hr], hm⟩

theorem reSearch_isSome (kw pre s : PyStr)
    (h : (tryMatchAt kw s).isSome = true) :
    (reSearch kw (pre ++ s)).isSome = true := by
  induction pre with
  | nil =>
    rw [List.nil_append]
    cases s with
    | nil => simp [tryMatchAt, stripLit, lmStr] at h
    | cons c r =>
      rw [reSearch]
      cases e : tryMatchAt kw (c :: r) with
      | some cap => rfl
      | none => rw [e] at h; exact absurd h (by simp)
  | cons c p ih =>
    rw [List.cons_append, reSearch]
    cases e : tryMatchAt kw (c :: (p ++ s)) with
    | some cap => rfl
    | none => exact ih

theorem tryMatchAt_isSome (kw t w1 w2 cap w3 t2 w4 post : PyStr)
    (hk : kw = titleKw ∨ kw = labelsKw)
    (hw1 : AllWs w1) (_hw2 : AllWs w2) (hw3 : AllWs w3) (hw4 : AllWs w4)
    (ht : t.map Char.toLower = kw.map Char.toLower)
    (ht2 : t2.map Char.toLower = kw.map Char.toLower)
    (hcap : cap ≠ []) :
    (tryMatchAt kw (lmStr ++ (w1 ++ (t ++ ('>' :: (w2 ++ (cap ++ (w3 ++
      ('<' :: (t2 ++ (w4 ++ ('-' :: '-' :: '>' :: post)))))))))))).isSome
      = true := by
  obtain ⟨c, tr, htc, hcns⟩ := kw_head_nonspace kw t hk ht
  set T := w3 ++ ('<' :: (t2 ++ (w4 ++ ('-' :: '-' :: '>' :: post)))) with hT
  set R := w2 ++ (cap ++ T) with hR
  have e5 : tailMatch kw T = true := by
    rw [hT]
    exact tailMatch_of kw t2 w3 w4 post hw3 hw4 ht2
  have e6 : (findCapture kw (w2 ++ (cap ++ T))).isSome = true := by
    have hfc := findCapture_isSome kw (w2 ++ cap) T (by simp [hcap]) e5
    simpa [List.append_assoc] using hfc
  have e7 : (captureAfterWs kw R).isSome = true := by
    rw [hR]
    exact captureAfterWs_isSome _ _ e6
  have e1 : stripLit lmStr (lmStr ++ (w1 ++ (t ++ ('>' :: R))))
      = some (w1 ++ (t ++ ('>' :: R))) := stripLit_self _ _
  have e2 : skipWs (w1 ++ (t ++ ('>' :: R))) = t ++ ('>' :: R) := by
    rw [skipWs_append _ _ hw1, htc, List.cons_append,
      skipWs_nonspace _ _ hcns]
  have e3 : stripLitCI kw (t ++ ('>' :: R)) = some ('>' :: R) :=
    stripLitCI_of _ _ _ ht
  have e4 : stripLit gtStr ('>' :: R) = some R := stripLit_self gtStr R
  obtain ⟨cp, hcp⟩ := Option.isSome_iff_exists.mp e7
  simp [tryMatchAt, e1, e2, e3, e4, hcp]

theorem hasMarker_isSome (kw content : PyStr)
    (hk : kw = titleKw ∨ kw = labelsKw) (h : HasMarker kw content) :
    (reSearch kw content).isSome = true := by
  obtain ⟨pre, w1, t, w2, cap, w3, t2, w4, post, heq, hw1, hw2, hw3, hw4,
    ht, ht2, hcap⟩ := h
  subst heq
  exact reSearch_isSome kw pre _
    (tryMatchAt_isSome kw t w1 w2 cap w3 t2 w4 post hk hw1 hw2 hw3 hw4
      ht ht2 hcap)

theorem hasMarker_of_reSearch (kw content cap : PyStr)
    (h : reSearch kw content = some cap) : HasMarker kw content := by
  obtain ⟨pre, s, heq, hm⟩ := reSearch_decomp _ _ _ h
  obtain ⟨w1, t, w2, w3, t2, w4, post, hs, hw1, hw2, hw3, hw4, ht, ht2,
    hcap⟩ := tryMatchAt_decomp _ _ _ hm
  subst heq
  rw [hs]
  exact ⟨pre, w1, t, w2, cap, w3, t2, w4, post, rfl, hw1, hw2, hw3, hw4,
    ht, ht2, hcap⟩

theorem extract_title_eq (content : PyStr) :
    (extract_metadata_from_content content).1
      = (reSearch titleKw content).map pyStrip := rfl

theorem extract_labels_eq (content : PyStr) :
    (extract_metadata_from_content content).2
      = match reSearch labelsKw content with
        | none => none
        | some cap =>
          if (pyStrip cap).isEmpty then none
          else some (labelPieces (pyStrip cap)) := rfl

/-- C3: for every content string containing a title marker,
`extract_metadata_from_content` returns as title the first
case-insensitive match's capture trimmed of leading and trailing
whitespace; for every content string with no title marker the title is
absent. -/
theorem title_extraction_correct (content : PyStr) :
    (HasMarker titleKw content →
      ∃ cap, reSearch titleKw content = some cap ∧
        (extract_metadata_from_content content).1 = some (pyStrip cap)) ∧
    (¬ HasMarker titleKw content →
      (extract_metadata_from_content content).1 = none) := by
  constructor
  · intro h
    obtain ⟨cap, hcap⟩ := Option.isSome_iff_exists.mp
      (hasMarker_isSome titleKw content (.inl rfl) h)
    refine ⟨cap, hcap, ?_⟩
    rw [extract_title_eq, hcap]
    rfl
  · intro h
    cases e : reSearch titleKw content with
    | some cap => exact absurd (hasMarker_of_reSearch _ _ _ e) h
    | none =>
      rw [extract_title_eq, e]
      rfl

/-- Concrete run for C3: a title marker with odd casing and surrounding
text. -/
def contentC3 : PyStr := "x<!-- TITLE> Hello <title -->y".toList

theorem title_extraction_correct_witness :
    HasMarker titleKw contentC3 ∧
    ∃ cap, reSearch titleKw contentC3 = some cap ∧
      (extract_metadata_from_content contentC3).1 = some (pyStrip cap) := by
  have hm : HasMarker titleKw contentC3 :=
    ⟨['x'], [' '], ['T', 'I', 'T', 'L', 'E'], [' '],
      ['H', 'e', 'l', 'l', 'o'], [' '], ['t', 'i', 't', 'l', 'e'], [' '],
      ['y'],
      by decide, by decide, by decide, by decide, by decide, by decide,
      by decide, by decide⟩
  exact ⟨hm, (title_extraction_correct contentC3).1 hm⟩

/-- Concrete content for the C2 counterexample: the labels capture is a
bare comma, so the trimmed capture is non-empty but every piece trims to
empty. -/
def contentC2cex : PyStr := "<!-- labels>,<labels -->".toList

/-- C2 counterexample: on `<!-- labels>,<labels -->` the resulting
sequence of pieces is empty, yet `extract_metadata_from_content` reports
the labels as the present empty sequence, not as absent. -/
theorem labels_empty_pieces_present :
    (extract_metadata_from_content contentC2cex).2 = some [] ∧
    (extract_metadata_from_content contentC2cex).2 ≠ none := by decide

/-- C2 (amended): for every content string containing a labels marker,
`extract_metadata_from_content` returns as labels the first
case-insensitive match's capture split on commas, each piece trimmed and
empty pieces dropped, in original order — reported as absent when the
trimmed capture is empty, but as the present empty sequence when the
trimmed capture is non-empty and every piece trims to empty; with no
labels marker the labels are absent. -/
theorem labels_extraction_amended (content : PyStr) :
    (HasMarker labelsKw content →
      ∃ cap, reSearch labelsKw content = some cap ∧
        (extract_metadata_from_content content).2 =
          (if (pyStrip cap).isEmpty then none
           else some (labelPieces (pyStrip cap)))) ∧
    (¬ HasMarker labelsKw content →
      (extract_metadata_from_content content).2 = none) := by
  constructor
  · intro h
    obtain ⟨cap, hcap⟩ := Option.isSome_iff_exists.mp
      (hasMarker_isSome labelsKw content (.inr rfl) h)
    refine ⟨cap, hcap, ?_⟩
    rw [extract_labels_eq, hcap]
  · intro h
    cases e : reSearch labelsKw content with
    | some cap => exact absurd (hasMarker_of_reSearch _ _ _ e) h
    | none =>
      rw [extract_labels_eq, e]

/-- Concrete run for C2: the spec's own example capture `a, b ,c`. -/
def contentC2 : PyStr := "<!-- labels>a, b ,c<labels -->".toList

theorem labels_extraction_amended_witness :
    HasMarker labelsKw contentC2 ∧
    (∃ cap, reSearch labelsKw contentC2 = some cap ∧
      (extract_metadata_from_content contentC2).2 =
        (if (pyStrip cap).isEmpty then none
         else some (labelPieces (pyStrip cap)))) ∧
    (extract_metadata_from_content contentC2).2
      = some [['a'], ['b'], ['c']] := by
  have hm : HasMarker labelsKw contentC2 :=
    ⟨[], [' '], ['l', 'a', 'b', 'e', 'l', 's'], [],
      ['a', ',', ' ', 'b', ' ', ',', 'c'], [],
      ['l', 'a', 'b', 'e', 'l', 's'], [' '], [],
      by decide, by decide, by decide, by decide, by decide, by decide,
      by decide, by decide⟩
  exact ⟨hm, (labels_extraction_amended contentC2).1 hm, by decide⟩

theorem mergeBlogUrl_only (config : Config) (a : Args) :
    (mergeBlogUrl config a).file = a.file ∧
    (mergeBlogUrl config a).title = a.title ∧
    (mergeBlogUrl config a).blog_id = a.blog_id ∧
    (mergeBlogUrl config a).labels = a.labels ∧
    (mergeBlogUrl config a).draft = a.draft ∧
    (mergeBlogUrl config a).credentials = a.credentials ∧
    (mergeBlogUrl config a).token = a.token ∧
    (mergeBlogUrl config a).config = a.config ∧
    (mergeBlogUrl config a).verbose = a.verbose := by
  unfold mergeBlogUrl
  split
  · split <;> simp
  · simp

theorem mergeBlogId_only (config : Config) (a : Args) :
    (mergeBlogId config a).file = a.file ∧
    (mergeBlogId config a).title = a.title ∧
    (mergeBlogId config a).blog_url = a.blog_url ∧
    (mergeBlogId config a).labels = a.labels ∧
    (mergeBlogId config a).draft = a.draft ∧
    (mergeBlogId config a).credentials = a.credentials ∧
    (mergeBlogId config a).token = a.token ∧
    (mergeBlogId config a).config = a.config ∧
    (mergeBlogId config a).verbose = a.verbose := by
  unfold mergeBlogId
  split
  · split <;> simp
  · simp

theorem mergeLabels_only (config : Config) (a : Args) :
    (mergeLabels config a).file = a.file ∧
    (mergeLabels config a).title = a.title ∧
    (mergeLabels config a).blog_url = a.blog_url ∧
    (mergeLabels config a).blog_id = a.blog_id ∧
    (mergeLabels config a).draft = a.draft ∧
    (mergeLabels config a).credentials = a.credentials ∧
    (mergeLabels config a).token = a.token ∧
    (mergeLabels config a).config = a.config ∧
    (mergeLabels config a).verbose = a.verbose := by
  unfold mergeLabels
  split
  · split <;> simp
  · split <;> simp
  · simp

theorem mergeCredentials_only (config : Config) (a : Args) :
    (mergeCredentials config a).file = a.file ∧
    (mergeCredentials config a).title = a.title ∧
    (mergeCredentials config a).blog_url = a.blog_url ∧
    (mergeCredentials config a).blog_id = a.blog_id ∧
    (mergeCredentials config a).labels = a.labels ∧
    (mergeCredentials config a).draft = a.draft ∧
    (mergeCredentials config a).token = a.token ∧
    (mergeCredentials config a).config = a.config ∧
    (mergeCredentials config a).verbose = a.verbose := by
  unfold mergeCredentials
  split
  · split <;> simp
  · simp

theorem mergeToken_only (config : Config) (a : Args) :
    (mergeToken config a).file = a.file ∧
    (mergeToken config a).title = a.title ∧
    (mergeToken config a).blog_url = a.blog_url ∧
    (mergeToken config a).blog_id = a.blog_id ∧
    (mergeToken config a).labels = a.labels ∧
    (mergeToken config a).draft = a.draft ∧
    (mergeToken config a).credentials = a.credentials ∧
    (mergeToken config a).config = a.config ∧
    (mergeToken config a).verbose = a.verbose := by
  unfold mergeToken
  split
  · split <;> simp
  · simp

theorem mergeDraft_only (config : Config) (a : Args) :
    (mergeDraft config a).file = a.file ∧
    (mergeDraft config a).title = a.title ∧
    (mergeDraft config a).blog_url = a.blog_url ∧
    (mergeDraft config a).blog_id = a.blog_id ∧
    (mergeDraft config a).labels = a.labels ∧
    (mergeDraft config a).credentials = a.credentials ∧
    (mergeDraft config a).token = a.token ∧
    (mergeDraft config a).config = a.config ∧
    (mergeDraft config a).verbose = a.verbose := by
  unfold mergeDraft
  split
  · split <;> simp
  · simp

theorem merge_blog_id_eq (config : Config) (args : Args) :
    (merge_config_with_args config args).blog_id
      = (mergeBlogId config (mergeBlogUrl config args)).blog_id := by
  unfold merge_config_with_args
  rw [(mergeDraft_only _ _).2.2.2.1, (mergeToken_only _ _).2.2.2.1,
    (mergeCredentials_only _ _).2.2.2.1, (mergeLabels_only _ _).2.2.2.1]

theorem merge_labels_eq (config : Config) (args : Args) :
    (merge_config_with_args config args).labels
      = (mergeLabels config (mergeBlogId config
          (mergeBlogUrl config args))).labels := by
  unfold merge_config_with_args
  rw [(mergeDraft_only _ _).2.2.2.2.1, (mergeToken_only _ _).2.2.2.2.1,
    (mergeCredentials_only _ _).2.2.2.2.1]

theorem merge_credentials_eq (config : Config) (args : Args) :
    (merge_config_with_args config args).credentials
      = (mergeCredentials config (mergeLabels config (mergeBlogId config
          (mergeBlogUrl config args)))).credentials := by
  unfold merge_config_with_args
  rw [(mergeDraft_only _ _).2.2.2.2.2.1, (mergeToken_only _ _).2.2.2.2.2.2.1]

theorem merge_token_eq (config : Config) (args : Args) :
    (merge_config_with_args config args).token
      = (mergeToken config (mergeCredentials config (mergeLabels config
          (mergeBlogId config (mergeBlogUrl config args))))).token := by
  unfold merge_config_with_args
  rw [(mergeDraft_only _ _).2.2.2.2.2.2.1]

theorem merge_title_eq (config : Config) (args : Args) :
    (merge_config_with_args config args).title = args.title := by
  unfold merge_config_with_args
  rw [(mergeDraft_only _ _).2.1, (mergeToken_only _ _).2.1,
    (mergeCredentials_only _ _).2.1, (mergeLabels_only _ _).2.1,
    (mergeBlogId_only _ _).2.1, (mergeBlogUrl_only _ _).2.1]

theorem merge_empty (args : Args) :
    merge_config_with_args {} args = args := rfl

theorem mergeBlogId_apply (config : Config) (a : Args) (v : PyStr)
    (hc : config.blog_id = some v) (h1 : truthyS a.blog_id = false)
    (h2 : v ≠ []) : (mergeBlogId config a).blog_id = some v := by
  simp [mergeBlogId, hc, h1, h2]

theorem mergeBlogId_keep (config : Config) (a : Args)
    (h : truthyS a.blog_id = true) :
    (mergeBlogId config a).blog_id = a.blog_id := by
  cases hc : config.blog_id with
  | none => simp [mergeBlogId, hc]
  | some v => simp [mergeBlogId, hc, h]

theorem mergeCredentials_apply (config : Config) (a : Args) (v : PyStr)
    (hc : config.credentials = some v)
    (h1 : a.credentials = DEFAULT_CREDENTIALS_FILE) (h2 : v ≠ []) :
    (mergeCredentials config a).credentials = v := by
  simp [mergeCredentials, hc, h1, h2]

theorem mergeToken_apply (config : Config) (a : Args) (v : PyStr)
    (hc : config.token = some v) (h1 : a.token = DEFAULT_TOKEN_FILE)
    (h2 : v ≠ []) : (mergeToken config a).token = v := by
  simp [mergeToken, hc, h1, h2]

theorem mergeLabels_applyList (config : Config) (a : Args) (l : List PyStr)
    (hc : config.labels = some (.asList l)) (h1 : truthyS a.labels = false)
    (h2 : l ≠ []) : (mergeLabels config a).labels = some (joinComma l) := by
  simp [mergeLabels, hc, h1, h2]

/-- C4: for the blog-id field, merge_config_with_args applies
CLI-over-config precedence: a config blog id becomes effective when the
command line supplies none, and a command-line blog id wins over the
config one. -/
theorem blog_id_precedence (config : Config) (args : Args) :
    (∀ x, x ≠ [] → truthyS args.blog_id = false → config.blog_id = some x →
      (merge_config_with_args config args).blog_id = some x) ∧
    (∀ y, y ≠ [] → args.blog_id = some y →
      (merge_config_with_args config args).blog_id = some y) := by
  have h1 : (mergeBlogUrl config args).blog_id = args.blog_id :=
    (mergeBlogUrl_only config args).2.2.1
  constructor
  · intro x hx hfalsy hc
    rw [merge_blog_id_eq]
    exact mergeBlogId_apply config (mergeBlogUrl config args) x hc
      (by rw [h1]; exact hfalsy) hx
  · intro y hy hcli
    rw [merge_blog_id_eq]
    have htr : truthyS (mergeBlogUrl config args).blog_id = true := by
      rw [h1, hcli]
      simp [truthyS, hy]
    rw [mergeBlogId_keep config _ htr, h1, hcli]

/-- Concrete inputs for C4. -/
def configC4 : Config := { blog_id := some ("X1".toList) }

/-- C4 run with no command-line blog id. -/
def argsC4none : Args := { file := ("f.txt".toList) }

/-- C4 run with a command-line blog id. -/
def argsC4some : Args :=
  { file := ("f.txt".toList), blog_id := some ("Y1".toList) }

theorem blog_id_precedence_witness :
    (merge_config_with_args configC4 argsC4none).blog_id
      = some ("X1".toList) ∧
    (merge_config_with_args configC4 argsC4some).blog_id
      = some ("Y1".toList) :=
  ⟨(blog_id_precedence configC4 argsC4none).1 ("X1".toList) (by decide)
      (by decide) rfl,
   (blog_id_precedence configC4 argsC4some).2 ("Y1".toList) (by decide) rfl⟩

/-- C5: a command-line credentials or token path equal to the parser's
default sentinel is treated as not supplied, so the config value becomes
the effective path — an explicit command-line value equal to the literal
default cannot override the config file. -/
theorem default_sentinel_cannot_override (config : Config) (args : Args) :
    (∀ p, p ≠ [] → config.credentials = some p →
      args.credentials = DEFAULT_CREDENTIALS_FILE →
      (merge_config_with_args config args).credentials = p) ∧
    (∀ q, q ≠ [] → config.token = some q →
      args.token = DEFAULT_TOKEN_FILE →
      (merge_config_with_args config args).token = q) := by
  constructor
  · intro p hp hc hd
    rw [merge_credentials_eq]
    refine mergeCredentials_apply _ _ _ hc ?_ hp
    rw [(mergeLabels_only _ _).2.2.2.2.2.1, (mergeBlogId_only _ _).2.2.2.2.2.1,
      (mergeBlogUrl_only _ _).2.2.2.2.2.1]
    exact hd
  · intro q hq hc hd
    rw [merge_token_eq]
    refine mergeToken_apply _ _ _ hc ?_ hq
    rw [(mergeCredentials_only _ _).2.2.2.2.2.2.1,
      (mergeLabels_only _ _).2.2.2.2.2.2.1,
      (mergeBlogId_only _ _).2.2.2.2.2.2.1,
      (mergeBlogUrl_only _ _).2.2.2.2.2.2.1]
    exact hd

/-- Concrete inputs for C5: both paths provided by the config while the
command line holds the literal defaults. -/
def configC5 : Config :=
  { credentials := some ("team-creds.json".toList),
    token := some ("team-token.json".toList) }

/-- C5 run: argparse defaults for both paths. -/
def argsC5 : Args := { file := ("f.txt".toList) }

theorem default_sentinel_cannot_override_witness :
    (merge_config_with_args configC5 argsC5).credentials
      = ("team-creds.json".toList) ∧
    (merge_config_with_args configC5 argsC5).token
      = ("team-token.json".toList) :=
  ⟨(default_sentinel_cannot_override configC5 argsC5).1
      ("team-creds.json".toList) (by decide) rfl rfl,
   (default_sentinel_cannot_override configC5 argsC5).2
      ("team-token.json".toList) (by decide) rfl rfl⟩

/-- C10: merge_config_with_args only ever changes the blog_url, blog_id,
labels, credentials, token and draft fields of the argument struct: the
file, title, config and verbose fields are returned unchanged for every
config mapping, and for the empty config mapping the entire argument
struct is returned unchanged. -/
theorem merge_config_frame (config : Config) (args : Args) :
    (merge_config_with_args config args).file = args.file ∧
    (merge_config_with_args config args).title = args.title ∧
    (merge_config_with_args config args).config = args.config ∧
    (merge_config_with_args config args).verbose = args.verbose ∧
    merge_config_with_args {} args = args := by
  refine ⟨?_, merge_title_eq config args, ?_, ?_, merge_empty args⟩
  · unfold merge_config_with_args
    rw [(mergeDraft_only _ _).1, (mergeToken_only _ _).1,
      (mergeCredentials_only _ _).1, (mergeLabels_only _ _).1,
      (mergeBlogId_only _ _).1, (mergeBlogUrl_only _ _).1]
  · unfold merge_config_with_args
    rw [(mergeDraft_only _ _).2.2.2.2.2.2.2.1,
      (mergeToken_only _ _).2.2.2.2.2.2.2.1,
      (mergeCredentials_only _ _).2.2.2.2.2.2.2.1,
      (mergeLabels_only _ _).2.2.2.2.2.2.2.1,
      (mergeBlogId_only _ _).2.2.2.2.2.2.2.1,
      (mergeBlogUrl_only _ _).2.2.2.2.2.2.2.1]
  · unfold merge_config_with_args
    rw [(mergeDraft_only _ _).2.2.2.2.2.2.2.2,
      (mergeToken_only _ _).2.2.2.2.2.2.2.2,
      (mergeCredentials_only _ _).2.2.2.2.2.2.2.2,
      (mergeLabels_only _ _).2.2.2.2.2.2.2.2,
      (mergeBlogId_only _ _).2.2.2.2.2.2.2.2,
      (mergeBlogUrl_only _ _).2.2.2.2.2.2.2.2]

/-- C7: an unreadable or malformed configuration source degrades to the
empty configuration, every field falls through to the command-line
values, and the run continues (the loader returns normally, it never
terminates the process). -/
theorem config_load_failure_degrades (config_path : Option PyStr)
    (env : CfgEnv) (args : Args) (h : env.readParse = .error ()) :
    load_config_file config_path env = {} ∧
    merge_config_with_args (load_config_file config_path env) args
      = args := by
  have h1 : load_config_file config_path env = {} := by
    unfold load_config_file
    split
    · rfl
    · split
      · rfl
      · rw [h]
  exact ⟨h1, by rw [h1]; exact merge_empty args⟩

/-- Concrete inputs for C7: an existing config file whose contents fail to
parse. -/
def cfgEnvC7 : CfgEnv :=
  { pathExists := true, yamlAvailable := true, readParse := .error () }

/-- C7 run arguments. -/
def argsC7 : Args := { file := ("f.txt".toList), title := some ("T".toList) }

theorem config_load_failure_degrades_witness :
    load_config_file (some ("gblog.yaml".toList)) cfgEnvC7 = {} ∧
    merge_config_with_args
      (load_config_file (some ("gblog.yaml".toList)) cfgEnvC7) argsC7
      = argsC7 :=
  config_load_failure_degrades (some ("gblog.yaml".toList)) cfgEnvC7 argsC7 rfl

theorem splitComma_nocomma (s : PyStr) (h : ',' ∉ s) : splitComma s = [s] := by
  induction s with
  | nil => rfl
  | cons c r ih =>
    have hc : ¬ c = ',' := fun e => h (by simp [e])
    have h2 : ',' ∉ r := fun m => h (by simp [m])
    simp [splitComma, hc, ih h2]

theorem splitComma_comma (x r : PyStr) (h : ',' ∉ x) :
    splitComma (x ++ ',' :: r) = x :: splitComma r := by
  induction x with
  | nil => simp [splitComma]
  | cons c xs ih =>
    have hc : ¬ c = ',' := fun e => h (by simp [e])
    have h2 : ',' ∉ xs := fun m => h (by simp [m])
    rw [List.cons_append]
    simp [splitComma, hc, ih h2]

theorem splitComma_joinComma (L : List PyStr) (hne : L ≠ [])
    (h : ∀ s ∈ L, ',' ∉ s) : splitComma (joinComma L) = L := by
  induction L with
  | nil => exact absurd rfl hne
  | cons x xs ih =>
    cases xs with
    | nil => simp [joinComma, splitComma_nocomma x (h x (by simp))]
    | cons y ys =>
      rw [joinComma, splitComma_comma x _ (h x (by simp)),
        ih (by simp) (fun s hs => h s (by simp [hs]))]

theorem map_pyStrip_id (L : List PyStr) (h : ∀ s ∈ L, pyStrip s = s) :
    L.map pyStrip = L := by
  induction L with
  | nil => rfl
  | cons x xs ih =>
    rw [List.map_cons, h x (by simp), ih (fun s hs => h s (by simp [hs]))]

theorem joinComma_ne_nil (x : PyStr) (xs : List PyStr) (hx : x ≠ []) :
    joinComma (x :: xs) ≠ [] := by
  cases xs with
  | nil => simpa [joinComma] using hx
  | cons y ys => simp [joinComma]

/-- C6: for every config whose labels value is a list of comma-free,
already-trimmed, non-empty strings and no truthy command-line labels, the
final label sequence used for the post equals that list in order: joining
on commas and re-splitting downstream recovers the original sequence. -/
theorem config_labels_roundtrip (config : Config) (args : Args)
    (L : List PyStr) (fileLabels : Option (List PyStr))
    (hL : config.labels = some (.asList L)) (hne : L ≠ [])
    (helem : ∀ s ∈ L, s ≠ [] ∧ ',' ∉ s ∧ pyStrip s = s)
    (hcli : truthyS args.labels = false) :
    finalLabels (merge_config_with_args config args) fileLabels = some L := by
  have h2 : (mergeBlogId config (mergeBlogUrl config args)).labels
      = args.labels := by
    rw [(mergeBlogId_only _ _).2.2.2.1, (mergeBlogUrl_only _ _).2.2.2.1]
  have hmerged : (merge_config_with_args config args).labels
      = some (joinComma L) := by
    rw [merge_labels_eq]
    exact mergeLabels_applyList config _ L hL (by rw [h2]; exact hcli) hne
  obtain ⟨x, xs, rfl⟩ : ∃ x xs, L = x :: xs := by
    cases L with
    | nil => exact absurd rfl hne
    | cons x xs => exact ⟨x, xs, rfl⟩
  have hx : x ≠ [] := (helem x (by simp)).1
  have htr : truthyS (merge_config_with_args config args).labels = true := by
    rw [hmerged]
    simp [truthyS, joinComma_ne_nil x xs hx]
  unfold finalLabels
  rw [if_pos htr, hmerged]
  simp only [Option.getD_some]
  rw [splitComma_joinComma _ (by simp) (fun s hs => (helem s hs).2.1),
    map_pyStrip_id _ (fun s hs => (helem s hs).2.2)]

/-- Concrete inputs for C6. -/
def configC6 : Config :=
  { labels := some (.asList [("dev".toList), ("ops".toList)]) }

/-- C6 run arguments: no command-line labels. -/
def argsC6 : Args := { file := ("f.txt".toList) }

theorem config_labels_roundtrip_witness :
    finalLabels (merge_config_with_args configC6 argsC6)
      (some [("zz".toList)]) = some [("dev".toList), ("ops".toList)] :=
  config_labels_roundtrip configC6 argsC6
    [("dev".toList), ("ops".toList)] (some [("zz".toList)]) rfl
    (by decide) (by decide) rfl

/-- C8: when neither a blog id nor a blog url is supplied, `get_blog_id`
lists the caller's blogs: exactly one blog is auto-selected and returned
without prompting the user, and zero blogs (an empty or missing items
list) exits the process with status 1. -/
theorem blog_listing_selection (env : BlogEnv)
    (blog_id blog_url : Option PyStr) (inputs : List (Option Nat))
    (h1 : truthyS blog_id = false) (h2 : truthyS blog_url = false) :
    (∀ b, env.listByUser = .ok (some [b]) →
      get_blog_id env blog_id blog_url inputs = (.ret b.id, false)) ∧
    ((env.listByUser = .ok (some []) ∨ env.listByUser = .ok none) →
      get_blog_id env blog_id blog_url inputs = (.exit1, false)) := by
  have hni : ¬ truthyS blog_id = true := by simp [h1]
  have hnu : ¬ truthyS blog_url = true := by simp [h2]
  constructor
  · intro b hb
    unfold get_blog_id
    rw [if_neg hni, if_neg hnu, hb]
  · intro hz
    unfold get_blog_id
    rcases hz with hz | hz <;> rw [if_neg hni, if_neg hnu, hz]

/-- Concrete single accessible blog for C8. -/
def blogC8 : Blog :=
  { id := ("42".toList), name := ("My Blog".toList),
    url := ("https://b.example".toList) }

/-- C8 remote environment returning exactly one blog. -/
def benvC8one : BlogEnv :=
  { getById := .error 404, getByUrl := .error 404,
    listByUser := .ok (some [blogC8]) }

/-- C8 remote environment returning an empty blog list. -/
def benvC8zero : BlogEnv :=
  { getById := .error 404, getByUrl := .error 404,
    listByUser := .ok (some []) }

theorem blog_listing_selection_witness :
    get_blog_id benvC8one none none [] = (.ret ("42".toList), false) ∧
    get_blog_id benvC8zero none none [] = (.exit1, false) :=
  ⟨(blog_listing_selection benvC8one none none [] rfl rfl).1 blogC8 rfl,
   (blog_listing_selection benvC8zero none none [] rfl rfl).2 (.inl rfl)⟩

/-- C9 run arguments: a command-line labels string with empty pieces. -/
def argsC9 : Args :=
  { file := ("f.txt".toList), labels := some ("a,,b".toList) }

/-- C9: command-line labels are split on commas and trimmed but empty
pieces are NOT dropped, unlike file-marker label extraction: with labels
"a,,b" the final label list placed into the post body contains the empty
string, while the same text inside a labels marker yields only
["a", "b"]. -/
theorem cli_labels_keep_empty_pieces :
    finalLabels argsC9 none = some [['a'], [], ['b']] ∧
    (post_body ("T".toList) ("body".toList)
      (finalLabels argsC9 none)).labels = some [['a'], [], ['b']] ∧
    ([] : PyStr) ∈ [['a'], ([] : PyStr), ['b']] ∧
    (extract_metadata_from_content
      ("<!-- labels>a,,b<labels -->".toList)).2 = some [['a'], ['b']] := by
  decide

/-- C1: whenever the command-line title is absent or empty and the
extractor finds no non-empty title in the file content, the run exits
with status 1 having performed no credential acquisition, no service
build, no blog resolution and no create-post call. -/
theorem missing_title_exits_before_network (env : MainEnv)
    (h1 : truthyS env.args.title = false)
    (h2 : ∀ content, env.readResult = .ok content →
      truthyS (extract_metadata_from_content content).1 = false) :
    ∃ evs, mainRun env = .exited 1 evs ∧
      Ev.auth ∉ evs ∧ Ev.buildService ∉ evs ∧ Ev.getBlogId ∉ evs ∧
      Ev.postToBlog ∉ evs := by
  have key : mainRun env = .exited 1 [] ∨
      mainRun env = .exited 1 [Ev.readFile] := by
    unfold mainRun
    by_cases hf : env.fileExists = false
    · rw [if_pos hf]
      exact .inl rfl
    · rw [if_neg hf]
      cases hr : env.readResult with
      | error e => exact .inr rfl
      | ok content =>
        have hft : truthyS (finalTitle (effectiveArgs env)
            (extract_metadata_from_content content).1) = false := by
          unfold finalTitle
          have ht : (effectiveArgs env).title = env.args.title := by
            unfold effectiveArgs
            exact merge_title_eq _ _
          rw [ht, h1]
          simpa using h2 content hr
        right
        simp [hft]
  rcases key with h | h
  · exact ⟨[], h, by decide, by decide, by decide, by decide⟩
  · exact ⟨[Ev.readFile], h, by decide, by decide, by decide, by decide⟩

/-- Concrete run for C1: no title on the command line, none in the file. -/
def envC1 : MainEnv :=
  { args := { file := ("post.txt".toList) },
    cfgEnv := { pathExists := false, yamlAvailable := true,
                readParse := .ok none },
    fileExists := true,
    readResult := .ok ("plain body, no markers".toList),
    credsOk := .ok (),
    blogEnv := { getById := .error 404, getByUrl := .error 404,
                 listByUser := .ok none },
    inputs := [],
    postOk := .ok () }

theorem missing_title_exits_before_network_witness :
    ∃ evs, mainRun envC1 = .exited 1 evs ∧
      Ev.auth ∉ evs ∧ Ev.buildService ∉ evs ∧ Ev.getBlogId ∉ evs ∧
      Ev.postToBlog ∉ evs :=
  missing_title_exits_before_network envC1 rfl
    (fun content hc => by
      cases hc
      decide)
